import Mathlib

/-!
Shallow embedding of the GPS-distance client (src/client.py) and proofs of
the specification claims about it.

The embedding follows the source file closely:
* `Config` constants become top-level definitions (`EARTH_RADIUS_KM`,
  `MAX_CONCURRENT_REQUESTS`), the latter as a function of the machine's
  `os.cpu_count()` result.
* `GPSUtils.haversine_distance` and `GPSUtils.process_gps` are embedded over
  the real numbers (Python float arithmetic idealised as exact real
  arithmetic); parsed coordinate values are kept as rationals so that the
  bookkeeping parts of the aggregation state stay computable.
* `DataUtils.sort_by_timestamp`, `DataProcessor.process_batch` and the
  fetch pipeline (`DataFetcher.fetch_sample`, `fetch_batch`,
  `async_data_generator`) are embedded as pure functions; the concurrency of
  the fetch layer is modelled by making the two reads of the shared
  `stop_event` flag inside `fetch_sample` explicit parameters, and by
  threading the flag sequentially through a batch (one admissible schedule).
-/

/-- Scalar values that can appear in the JSON-derived dicts handled by the
client: numbers (Python ints and floats, idealised as rationals), strings,
and Python `None`.  Other Python values (nested dicts, lists, booleans) do
not occur in the fields the client reads and are not modelled. -/
inductive PyVal where
  | num (q : ℚ)
  | str (s : String)
  | null
deriving DecidableEq

/-- The `gps` sub-dict of a sample.  Each field is `none` when the key is
absent from the dict and `some v` when the key is present with value `v`
(`some .null` meaning the key is present with value `None`). -/
structure Gps where
  lat : Option PyVal
  lng : Option PyVal
  read_timestamp : Option PyVal
deriving DecidableEq

/-- The `frame` sub-dict of a sample. -/
structure Frame where
  frame_id : Option PyVal
deriving DecidableEq

/-- One sample dict.  `gps`/`frame` is `none` when the key is absent or its
value is `None` (both make `sample.get(k)` falsy and make subscripting it
raise, which is all the client ever does with them). -/
structure Sample where
  gps : Option Gps
  frame : Option Frame
deriving DecidableEq

/-- Characters stripped by Python `float(str)` before parsing. -/
def isSpaceChar (c : Char) : Bool :=
  c = ' ' || c = '\t' || c = '\n' || c = '\r'

/-- Strip leading and trailing whitespace from a character list. -/
def trimChars (cs : List Char) : List Char :=
  ((cs.dropWhile isSpaceChar).reverse.dropWhile isSpaceChar).reverse

/-- Numeric value of a digit character. -/
def digitVal (c : Char) : ℕ := c.toNat - Char.toNat '0'

/-- Value of a nonempty all-digit character list, read in base 10. -/
def digitsToNat (cs : List Char) : ℕ :=
  cs.foldl (fun n c => 10 * n + digitVal c) 0

/-- Parse a nonempty run of decimal digits. -/
def parseNatDigits (cs : List Char) : Option ℕ :=
  if cs ≠ [] ∧ cs.all Char.isDigit then some (digitsToNat cs) else none

/-- Parse the mantissa part of a float literal: `digits`, `digits.digits`,
`digits.` or `.digits` (at least one digit overall). -/
def parseMantissa (cs : List Char) : Option ℚ :=
  match cs.span (fun c => c ≠ '.') with
  | (intPart, []) => (parseNatDigits intPart).map (fun n => (n : ℚ))
  | (intPart, _dot :: fracPart) =>
    if intPart = [] ∧ fracPart = [] then none
    else if intPart.all Char.isDigit ∧ fracPart.all Char.isDigit then
      some ((digitsToNat intPart : ℚ) +
        (digitsToNat fracPart : ℚ) / (10 : ℚ) ^ fracPart.length)
    else none

/-- Parse an exponent suffix (after `e`/`E`): optional sign then digits. -/
def parseExponent (cs : List Char) : Option ℤ :=
  match cs with
  | '+' :: rest => (parseNatDigits rest).map (fun n => (n : ℤ))
  | '-' :: rest => (parseNatDigits rest).map (fun n => -(n : ℤ))
  | rest => (parseNatDigits rest).map (fun n => (n : ℤ))

/-- Parse an unsigned float literal: mantissa with optional `e`/`E` exponent. -/
def parseUnsigned (cs : List Char) : Option ℚ :=
  match cs.span (fun c => c ≠ 'e' ∧ c ≠ 'E') with
  | (m, []) => parseMantissa m
  | (m, _e :: ex) => do
    let q ← parseMantissa m
    let k ← parseExponent ex
    some (q * (10 : ℚ) ^ k)

/-- Python `float(s)` on a string: strip whitespace, optional sign, decimal
literal with optional fraction and exponent; anything else raises
`ValueError` (modelled as `none`).  The special spellings `inf`/`nan` and
digit-group underscores are not modelled (the rationals have no infinities;
no claim involves them). -/
def parseDecimal (s : String) : Option ℚ :=
  match trimChars s.data with
  | '+' :: rest => parseUnsigned rest
  | '-' :: rest => (parseUnsigned rest).map Neg.neg
  | rest => parseUnsigned rest

/-- Python `float(v)` on the values the client can pass it: a number parses
to itself, a string is parsed as a decimal literal (`ValueError` on
failure), and `None` raises `TypeError`.  `none` models a raised
`ValueError`/`TypeError`, which `process_gps` catches. -/
def pyFloat : PyVal → Option ℚ
  | .num q => some q
  | .str s => parseDecimal s
  | .null => none

/-- Python truthiness of the Boolean expression `CORES or 1 * 4` followed by
`min(..., 64)` from `Config`: `or` binds looser than `*`, so the expression
is `CORES or (1 * 4)`; `None` and `0` are falsy, any other int is truthy and
is returned unchanged. -/
def pyOrNat (o : Option ℕ) (d : ℕ) : ℕ :=
  match o with
  | none => d
  | some n => if n = 0 then d else n

/-- `Config.MAX_CONCURRENT_REQUESTS = min(CORES or 1 * 4, 64)` as a function
of `CORES = os.cpu_count()` (which may be `None`). -/
def MAX_CONCURRENT_REQUESTS (cores : Option ℕ) : ℕ :=
  min (pyOrNat cores (1 * 4)) 64

/-- Modelled from the spec: the spec's stated default for the maximum number
of concurrent requests, `min(cpu_count * 4, 64)`. -/
def spec_max_concurrent (cpu_count : ℕ) : ℕ :=
  min (cpu_count * 4) 64

/-- `Config.BATCH_SIZE`. -/
def BATCH_SIZE : ℕ := 16

/-- The sort key `x["gps"]["read_timestamp"]` of a sample, `none` when
evaluating it raises (`KeyError` for an absent key, `TypeError` when `gps`
is `None`), both of which `sort_by_timestamp` catches. -/
def tsOf (s : Sample) : Option PyVal :=
  s.gps.bind Gps.read_timestamp

/-- Whether a sample's sort key is present and numeric. -/
def isNumTS (s : Sample) : Bool :=
  match tsOf s with
  | some (.num _) => true
  | _ => false

/-- Whether a sample's sort key is present and a string. -/
def isStrTS (s : Sample) : Bool :=
  match tsOf s with
  | some (.str _) => true
  | _ => false

/-- The numeric sort key of a sample (junk `0` when the key is not a
number; only used under `isNumTS`). -/
def tsQ (s : Sample) : ℚ :=
  match tsOf s with
  | some (.num q) => q
  | _ => 0

/-- The string sort key of a sample (junk when it is not a string; only
used under `isStrTS`). -/
def tsS (s : Sample) : String :=
  match tsOf s with
  | some (.str t) => t
  | _ => default

/-- Comparison of samples by an extracted key. -/
def keyLE {κ : Type} [LinearOrder κ] (f : Sample → κ) : Sample → Sample → Prop :=
  fun a b => f a ≤ f b

instance {κ : Type} [LinearOrder κ] (f : Sample → κ) : DecidableRel (keyLE f) :=
  fun a b => inferInstanceAs (Decidable (f a ≤ f b))

instance {κ : Type} [LinearOrder κ] (f : Sample → κ) : IsTotal Sample (keyLE f) :=
  ⟨fun a b => le_total (f a) (f b)⟩

instance {κ : Type} [LinearOrder κ] (f : Sample → κ) : IsTrans Sample (keyLE f) :=
  ⟨fun _ _ _ hab hbc => le_trans hab hbc⟩

/-- `DataUtils.sort_by_timestamp`: `sorted(data, key=lambda x:
x["gps"]["read_timestamp"])` with `KeyError`/`TypeError` caught, returning
`[]`.  CPython semantics embedded here: the key is extracted from every
element first (any raise gives `[]`); comparisons then use `<` on the keys,
which raises `TypeError` as soon as two elements of different kinds (or two
`None`s) are compared.  For a list of at most one element no comparison is
performed, so any present key sorts fine; for longer lists Python's sort
always compares across the whole list, so a raise happens exactly when the
keys are not all numbers or not all strings.  Python's sort is stable
ascending, as is `List.insertionSort` with a `≤` relation. -/
def sort_by_timestamp (data : List Sample) : List Sample :=
  if data.all (fun s => (tsOf s).isSome) then
    if data.all isNumTS then List.insertionSort (keyLE tsQ) data
    else if data.all isStrTS then List.insertionSort (keyLE tsS) data
    else if data.length ≤ 1 then data
    else []
  else []

/-- A parsed coordinate, the dict `{"lat": ..., "lng": ...}` built by
`process_gps` (values exact rationals, see module comment). -/
structure Point where
  lat : ℚ
  lng : ℚ
deriving DecidableEq

/-- The dedup key `(gps_data.get("read_timestamp"),
frame_data.get("frame_id"))`; `.get` with no default returns `None` for an
absent key, so absent and explicit `None` collapse to `.null` here, exactly
as in Python. -/
def SampleKey : Type := PyVal × PyVal

instance : DecidableEq SampleKey :=
  inferInstanceAs (DecidableEq (PyVal × PyVal))

/-- The mutable state of `DataProcessor` that `process_batch` touches:
`total_distance`, `previous_point` and `processed_ids` (a Python set,
modelled as a `Finset`).  `total_points` is only assigned at the very end
of `process_data`, as `len(processed_ids)`; see `totalPoints`. -/
structure ProcState where
  total_distance : ℝ
  previous_point : Option Point
  processed_ids : Finset SampleKey

/-- `DataProcessor.total_points` as computed at the end of `process_data`:
`len(self.processed_ids)`. -/
def totalPoints (st : ProcState) : ℕ :=
  st.processed_ids.card

/-- Python truthiness of the `gps` dict in `if gps_data and frame_data`:
a dict is truthy when nonempty, i.e. when at least one key is present. -/
def gpsTruthy (g : Gps) : Bool :=
  g.lat.isSome || g.lng.isSome || g.read_timestamp.isSome

/-- Python truthiness of the `frame` dict. -/
def frameTruthy (f : Frame) : Bool :=
  f.frame_id.isSome

/-- Whether `process_batch`'s guard `if gps_data and frame_data` accepts a
sample. -/
def accepted (s : Sample) : Bool :=
  match s.gps, s.frame with
  | some g, some f => gpsTruthy g && frameTruthy f
  | _, _ => false

/-- The dedup key of a sample (junk when the sample is not `accepted`). -/
def uid (s : Sample) : SampleKey :=
  match s.gps, s.frame with
  | some g, some f => (g.read_timestamp.getD .null, f.frame_id.getD .null)
  | _, _ => (.null, .null)

/-- `Config.EARTH_RADIUS_KM`. -/
noncomputable def EARTH_RADIUS_KM : ℝ := 6371

/-- `math.radians`: degrees to radians. -/
noncomputable def radians (x : ℝ) : ℝ := x * (Real.pi / 180)

/-- `math.atan2 y x`, by the usual quadrant case split over `Real.arctan`
(`atan2 0 0 = 0`, as in C and Python). -/
noncomputable def atan2 (y x : ℝ) : ℝ :=
  if 0 < x then Real.arctan (y / x)
  else if x < 0 then
    (if 0 ≤ y then Real.arctan (y / x) + Real.pi
     else Real.arctan (y / x) - Real.pi)
  else if 0 < y then Real.pi / 2
  else if y < 0 then -(Real.pi / 2)
  else 0

/-- The intermediate value `a` of `GPSUtils.haversine_distance`:
`sin(dlat/2)**2 + cos(lat1)*cos(lat2)*sin(dlng/2)**2` after the four inputs
have been mapped through `math.radians`.  (Named so the claims about the
distance can reason about it; the source keeps it in a local variable.) -/
noncomputable def a_hav (lat1 lng1 lat2 lng2 : ℝ) : ℝ :=
  Real.sin ((radians lat2 - radians lat1) / 2) ^ 2 +
    Real.cos (radians lat1) * Real.cos (radians lat2) *
      Real.sin ((radians lng2 - radians lng1) / 2) ^ 2

/-- `GPSUtils.haversine_distance`:
`c = 2 * atan2(sqrt(a), sqrt(1 - a))`, result `EARTH_RADIUS_KM * c`. -/
noncomputable def haversine_distance (lat1 lng1 lat2 lng2 : ℝ) : ℝ :=
  EARTH_RADIUS_KM *
    (2 * atan2 (Real.sqrt (a_hav lat1 lng1 lat2 lng2))
      (Real.sqrt (1 - a_hav lat1 lng1 lat2 lng2)))

/-- `GPSUtils.process_gps`: extract `lat`/`lng` with `current_gps.get(k, 0)`
(default `0` only when the key is absent), run them through `float`; any
`ValueError`/`TypeError`/`KeyError` is caught and `(0.0, previous_point)` is
returned.  On success: if the new point equals the previous one exactly,
`(0.0, previous_point)`; otherwise the haversine distance from the previous
point (or `0.0` when there is none) together with the new point. -/
noncomputable def process_gps (previous_point : Option Point) (current_gps : Gps) :
    ℝ × Option Point :=
  match pyFloat (current_gps.lat.getD (.num 0)), pyFloat (current_gps.lng.getD (.num 0)) with
  | some lat, some lng =>
    match previous_point with
    | some p =>
      if lat = p.lat ∧ lng = p.lng then (0, some p)
      else (haversine_distance (p.lat : ℝ) (p.lng : ℝ) (lat : ℝ) (lng : ℝ), some ⟨lat, lng⟩)
    | none => (0, some ⟨lat, lng⟩)
  | _, _ => (0, previous_point)

/-- The body of `process_batch`'s per-sample loop: skip samples failing the
`if gps_data and frame_data` truthiness guard, skip already-seen dedup keys,
otherwise record the key, add the distance from `process_gps` and move
`previous_point`. -/
noncomputable def processSample (st : ProcState) (s : Sample) : ProcState :=
  match s.gps, s.frame with
  | some g, some f =>
    if gpsTruthy g && frameTruthy f then
      if (g.read_timestamp.getD .null, f.frame_id.getD .null) ∈ st.processed_ids then st
      else
        { total_distance := st.total_distance + (process_gps st.previous_point g).1
          previous_point := (process_gps st.previous_point g).2
          processed_ids :=
            insert (g.read_timestamp.getD .null, f.frame_id.getD .null) st.processed_ids }
    else st
  | _, _ => st

/-- `DataProcessor.process_batch`: sort the batch by timestamp, then run the
per-sample loop over the sorted list. -/
noncomputable def process_batch (st : ProcState) (batch : List Sample) : ProcState :=
  (sort_by_timestamp batch).foldl processSample st

/-- What the server/transport produces for one request: an HTTP status with
an (already JSON-decoded) body when the status is 200 and the body parses,
or a transport-level failure (`aiohttp.ClientError`, timeout, any other
exception).  A 200 whose body fails to decode is `status 200 none` (the
raised decode error is caught by the final `except Exception`). -/
inductive Resp where
  | status (code : ℕ) (body : Option Sample)
  | failure
deriving DecidableEq

/-- Outcome of one `fetch_sample` call: its return value, whether it set the
shared `stop_event`, and whether it issued an HTTP request at all. -/
structure FetchResult where
  result : Option Sample
  setsStop : Bool
  issued : Bool
deriving DecidableEq

/-- `DataFetcher.fetch_sample`.  The shared `stop_event` flag is read twice:
once after acquiring the semaphore and before issuing the GET
(`stopEntry`), and once when the response is in hand (`stopResp`); a
concurrent fetch may set the flag between the two reads, so they are
separate parameters.  With the flag set on entry, the call returns `None`
without issuing a request.  Otherwise the GET is issued; if the flag is set
by response time the body is discarded, a 200 returns the decoded body, a
404 sets the flag, and any other status or transport failure returns
`None`. -/
def fetch_sample (stopEntry stopResp : Bool) (r : Resp) : FetchResult :=
  if stopEntry then ⟨none, false, false⟩
  else
    match r with
    | .status code body =>
      if stopResp then ⟨none, false, true⟩
      else if code = 200 then ⟨body, false, true⟩
      else if code = 404 then ⟨none, true, true⟩
      else ⟨none, false, true⟩
    | .failure => ⟨none, false, true⟩

/-- The `asyncio.gather` stage of `DataFetcher.fetch_batch`: one
`fetch_sample` per `sample_index` in `0..n-1`, results collected in task
order (`gather` preserves the order of its arguments).  The shared stop
flag is threaded sequentially from one fetch to the next — the fetches are
concurrent in the source, and this is one admissible schedule of the two
flag reads of each call. -/
def gather_step (resps : ℕ → Resp) (acc : List FetchResult × Bool) (i : ℕ) :
    List FetchResult × Bool :=
  let r := fetch_sample acc.2 acc.2 (resps i)
  (acc.1 ++ [r], acc.2 || r.setsStop)

def gather_results (stop : Bool) (resps : ℕ → Resp) (n : ℕ) :
    List FetchResult × Bool :=
  (List.range n).foldl (gather_step resps) ([], stop)

/-- The filtering loop of `DataFetcher.fetch_batch`: keep the results that
are not `None`, in the order `gather` returned them.  (The
`isinstance(result, Exception)` arm of the source loop is unreachable:
`gather` is called without `return_exceptions=True` and `fetch_sample`
catches every exception, so no list element is an exception object.) -/
def collect_valid (results : List (Option Sample)) : List Sample :=
  results.foldl
    (fun acc r =>
      match r with
      | some s => acc ++ [s]
      | none => acc)
    []

/-- `DataFetcher.fetch_batch` for one batch index: gather all `n` sample
fetches, then keep the non-`None` results.  Also returns the stop flag as
it stands after the batch. -/
def fetch_batch (stop : Bool) (resps : ℕ → Resp) (n : ℕ) : List Sample × Bool :=
  (collect_valid ((gather_results stop resps n).1.map FetchResult.result),
    (gather_results stop resps n).2)

/-- `DataFetcher.async_data_generator`: starting from batch index `i`,
repeatedly check the stop flag, fetch a batch, stop on an empty batch,
otherwise yield it and continue.  `resps b i` is what the transport returns
for `batch_index = b`, `sample_index = i`; `fuel` bounds the number of
iterations so the function is total (the Python generator is unbounded). -/
def async_data_generator (resps : ℕ → ℕ → Resp) (n : ℕ) :
    ℕ → Bool → ℕ → List (List Sample)
  | 0, _, _ => []
  | fuel + 1, stop, i =>
    if stop then []
    else
      let fb := fetch_batch stop (resps i) n
      if fb.1 = [] then []
      else fb.1 :: async_data_generator resps n fuel fb.2 (i + 1)

/-! Helper lemmas. -/

/-- `List.all` is invariant under permutation. -/
theorem perm_all_eq {α : Type} {l1 l2 : List α} (hp : l1.Perm l2) (p : α → Bool) :
    l1.all p = l2.all p := by
  rw [Bool.eq_iff_iff]
  simp only [List.all_eq_true]
  exact ⟨fun h x hx => h x (hp.mem_iff.mpr hx), fun h x hx => h x (hp.mem_iff.mp hx)⟩

/-- Two permuted lists with equal, duplicate-free key images are equal. -/
theorem eq_of_perm_of_map_eq {α κ : Type} {f : α → κ} :
    ∀ {l1 l2 : List α}, l1.Perm l2 → l1.map f = l2.map f → (l1.map f).Nodup → l1 = l2 := by
  intro l1
  induction l1 with
  | nil =>
    intro l2 hp _ _
    exact hp.nil_eq
  | cons a t1 ih =>
    intro l2 hp hm hnd
    cases l2 with
    | nil => exact absurd hp.symm.nil_eq (by simp)
    | cons b t2 =>
      simp only [List.map_cons, List.cons.injEq] at hm
      obtain ⟨hfab, hmt⟩ := hm
      simp only [List.map_cons, List.nodup_cons] at hnd
      have hab : a = b := by
        have hmem : a ∈ b :: t2 := hp.mem_iff.mp (List.mem_cons_self a t1)
        rcases List.mem_cons.mp hmem with h | h
        · exact h
        · exfalso
          have hfm : f a ∈ t2.map f := List.mem_map_of_mem f h
          rw [← hmt] at hfm
          exact hnd.1 hfm
      subst hab
      rw [ih hp.cons_inv hmt hnd.2]

/-- A sample's numeric sort key determines its raw sort key. -/
theorem tsOf_of_isNumTS {s : Sample} (h : isNumTS s = true) :
    tsOf s = some (.num (tsQ s)) := by
  unfold isNumTS at h
  unfold tsQ
  cases hts : tsOf s with
  | none => simp [hts] at h
  | some v =>
    cases v with
    | num q => simp [hts]
    | str t => simp [hts] at h
    | null => simp [hts] at h

/-- A sample's string sort key determines its raw sort key. -/
theorem tsOf_of_isStrTS {s : Sample} (h : isStrTS s = true) :
    tsOf s = some (.str (tsS s)) := by
  unfold isStrTS at h
  unfold tsS
  cases hts : tsOf s with
  | none => simp [hts] at h
  | some v =>
    cases v with
    | num q => simp [hts] at h
    | str t => simp [hts]
    | null => simp [hts] at h

/-- When every sort key is numeric, distinctness of the raw keys gives
distinctness of the extracted rational keys. -/
theorem nodup_tsQ_of_nodup_tsOf {l : List Sample} (hall : l.all isNumTS = true)
    (hnd : (l.map tsOf).Nodup) : (l.map tsQ).Nodup := by
  rw [List.all_eq_true] at hall
  have h1 : l.Pairwise (fun a b => tsOf a ≠ tsOf b) := List.pairwise_map.mp hnd
  have h2 : l.Pairwise (fun a b => tsQ a ≠ tsQ b) := by
    refine h1.imp_of_mem ?_
    intro a b ha hb hne heq
    apply hne
    rw [tsOf_of_isNumTS (hall a ha), tsOf_of_isNumTS (hall b hb), heq]
  exact List.pairwise_map.mpr h2

/-- When every sort key is a string, distinctness of the raw keys gives
distinctness of the extracted string keys. -/
theorem nodup_tsS_of_nodup_tsOf {l : List Sample} (hall : l.all isStrTS = true)
    (hnd : (l.map tsOf).Nodup) : (l.map tsS).Nodup := by
  rw [List.all_eq_true] at hall
  have h1 : l.Pairwise (fun a b => tsOf a ≠ tsOf b) := List.pairwise_map.mp hnd
  have h2 : l.Pairwise (fun a b => tsS a ≠ tsS b) := by
    refine h1.imp_of_mem ?_
    intro a b ha hb hne heq
    apply hne
    rw [tsOf_of_isStrTS (hall a ha), tsOf_of_isStrTS (hall b hb), heq]
  exact List.pairwise_map.mpr h2

/-- A list sorted by key comparison has a sorted key image. -/
theorem sorted_map_key {κ : Type} [LinearOrder κ] (f : Sample → κ) {l : List Sample}
    (h : List.Sorted (keyLE f) l) : List.Sorted (fun a b : κ => a ≤ b) (l.map f) :=
  List.pairwise_map.mpr h

/-- Sorting by a key with `List.insertionSort` gives the same result on any
two permuted lists whose key images are duplicate-free. -/
theorem keySort_perm_eq {κ : Type} [LinearOrder κ] (f : Sample → κ)
    {l1 l2 : List Sample} (hp : l1.Perm l2) (hnd : (l1.map f).Nodup) :
    List.insertionSort (keyLE f) l1 = List.insertionSort (keyLE f) l2 := by
  have hp1 : (List.insertionSort (keyLE f) l1).Perm l1 := List.perm_insertionSort _ _
  have hp2 : (List.insertionSort (keyLE f) l2).Perm l2 := List.perm_insertionSort _ _
  have hs1 : List.Sorted (keyLE f) (List.insertionSort (keyLE f) l1) :=
    List.sorted_insertionSort _ _
  have hs2 : List.Sorted (keyLE f) (List.insertionSort (keyLE f) l2) :=
    List.sorted_insertionSort _ _
  have hps : (List.insertionSort (keyLE f) l1).Perm (List.insertionSort (keyLE f) l2) :=
    (hp1.trans hp).trans hp2.symm
  haveI : IsAntisymm κ (fun a b : κ => a ≤ b) := ⟨fun _ _ => le_antisymm⟩
  have hm : (List.insertionSort (keyLE f) l1).map f =
      (List.insertionSort (keyLE f) l2).map f :=
    List.eq_of_perm_of_sorted (hps.map f) (sorted_map_key f hs1) (sorted_map_key f hs2)
  exact eq_of_perm_of_map_eq hps hm ((hp1.map f).nodup_iff.mpr hnd)

/-- `sort_by_timestamp` is invariant under permutation of its input when the
raw sort keys are duplicate-free. -/
theorem sort_by_timestamp_perm_eq {l1 l2 : List Sample} (hp : l1.Perm l2)
    (hnd : (l1.map tsOf).Nodup) :
    sort_by_timestamp l1 = sort_by_timestamp l2 := by
  unfold sort_by_timestamp
  rw [perm_all_eq hp (fun s => (tsOf s).isSome), perm_all_eq hp isNumTS,
    perm_all_eq hp isStrTS, hp.length_eq]
  by_cases h1 : l2.all (fun s => (tsOf s).isSome) = true
  · rw [if_pos h1, if_pos h1]
    by_cases h2 : l2.all isNumTS = true
    · rw [if_pos h2, if_pos h2]
      exact keySort_perm_eq tsQ hp
        (nodup_tsQ_of_nodup_tsOf (by rwa [perm_all_eq hp isNumTS]) hnd)
    · rw [if_neg h2, if_neg h2]
      by_cases h3 : l2.all isStrTS = true
      · rw [if_pos h3, if_pos h3]
        exact keySort_perm_eq tsS hp
          (nodup_tsS_of_nodup_tsOf (by rwa [perm_all_eq hp isStrTS]) hnd)
      · rw [if_neg h3, if_neg h3]
        by_cases h4 : l2.length ≤ 1
        · rw [if_pos h4, if_pos h4]
          cases l2 with
          | nil => exact hp.eq_nil
          | cons b t2 =>
            cases t2 with
            | nil => exact List.perm_singleton.mp hp
            | cons c t3 => simp at h4
        · rw [if_neg h4, if_neg h4]
  · rw [if_neg h1, if_neg h1]

/-- Splitting `accepted` into its components. -/
theorem accepted_elim {s : Sample} (h : accepted s = true) :
    ∃ g f, s.gps = some g ∧ s.frame = some f ∧ (gpsTruthy g && frameTruthy f) = true := by
  unfold accepted at h
  cases hg : s.gps with
  | none => rw [hg] at h; simp at h
  | some g =>
    cases hf : s.frame with
    | none => rw [hg, hf] at h; simp at h
    | some f =>
      rw [hg, hf] at h
      exact ⟨g, f, rfl, rfl, h⟩

/-- The dedup key of a sample with both sub-dicts present. -/
theorem uid_eq {s : Sample} {g : Gps} {f : Frame} (hg : s.gps = some g)
    (hf : s.frame = some f) :
    uid s = (g.read_timestamp.getD .null, f.frame_id.getD .null) := by
  unfold uid
  rw [hg, hf]

/-- Unfolding of `processSample` on a sample that passes the truthiness
guard. -/
theorem processSample_eq_of_accepted {st : ProcState} {s : Sample} {g : Gps} {f : Frame}
    (hg : s.gps = some g) (hf : s.frame = some f)
    (ht : (gpsTruthy g && frameTruthy f) = true) :
    processSample st s =
      if (g.read_timestamp.getD .null, f.frame_id.getD .null) ∈ st.processed_ids then st
      else
        { total_distance := st.total_distance + (process_gps st.previous_point g).1
          previous_point := (process_gps st.previous_point g).2
          processed_ids :=
            insert (g.read_timestamp.getD .null, f.frame_id.getD .null) st.processed_ids } := by
  unfold processSample
  rw [hg, hf]
  simp [ht]

/-- A shared concrete starting state: zero distance, no previous point, no
seen keys. -/
noncomputable def emptyState : ProcState := ⟨0, none, ∅⟩

/-- A shared concrete valid sample: coordinates (1, 2), timestamp 10,
frame id 1. -/
def sampleA : Sample :=
  ⟨some ⟨some (.num 1), some (.num 2), some (.num 10)⟩, some ⟨some (.num 1)⟩⟩

/-- A shared concrete valid sample: coordinates (3, 4), timestamp 20,
frame id 2. -/
def sampleB : Sample :=
  ⟨some ⟨some (.num 3), some (.num 4), some (.num 20)⟩, some ⟨some (.num 2)⟩⟩

/-- C1: for every batch whose samples all have distinct
`gps.read_timestamp` values, `process_batch` produces the same final
aggregation state (`previous_point`, `total_distance`, `processed_ids`)
for every permutation of the batch's input order. -/
theorem C1_process_batch_order_invariant (st : ProcState) (b1 b2 : List Sample)
    (hp : b1.Perm b2) (hnd : (b1.map tsOf).Nodup) :
    process_batch st b1 = process_batch st b2 := by
  unfold process_batch
  rw [sort_by_timestamp_perm_eq hp hnd]

/-- C1 witness: a concrete two-sample batch with distinct timestamps,
processed in both orders from the empty state. -/
theorem C1_witness :
    ([sampleA, sampleB].Perm [sampleB, sampleA]) ∧
      (([sampleA, sampleB].map tsOf).Nodup) ∧
      process_batch emptyState [sampleA, sampleB] =
        process_batch emptyState [sampleB, sampleA] :=
  ⟨List.Perm.swap sampleB sampleA [], by decide,
    C1_process_batch_order_invariant emptyState [sampleA, sampleB] [sampleB, sampleA]
      (List.Perm.swap sampleB sampleA []) (by decide)⟩

/-- C2: feeding the per-sample loop two occurrences with the identical
dedup key `(read_timestamp, frame_id)` changes the state exactly as
feeding it once — the second occurrence is skipped, so `total_distance`
and `total_points` are those of a single occurrence. -/
theorem C2_dedup_idempotent (st : ProcState) (s t : Sample) (hs : accepted s = true)
    (ht : accepted t = true) (huid : uid s = uid t) :
    processSample (processSample st s) t = processSample st s ∧
      (processSample (processSample st s) t).total_distance =
        (processSample st s).total_distance ∧
      totalPoints (processSample (processSample st s) t) =
        totalPoints (processSample st s) := by
  obtain ⟨gs, fs, hgs, hfs, hts⟩ := accepted_elim hs
  obtain ⟨gt, ft, hgt, hft, htt⟩ := accepted_elim ht
  have hus := uid_eq hgs hfs
  have hut := uid_eq hgt hft
  have hkey : (gt.read_timestamp.getD .null, ft.frame_id.getD .null) =
      (gs.read_timestamp.getD .null, fs.frame_id.getD .null) := by
    rw [← hut, ← huid, hus]
  have hmain : processSample (processSample st s) t = processSample st s := by
    rw [processSample_eq_of_accepted hgs hfs hts]
    by_cases hmem :
        (gs.read_timestamp.getD .null, fs.frame_id.getD .null) ∈ st.processed_ids
    · rw [if_pos hmem, processSample_eq_of_accepted hgt hft htt,
        if_pos (by rw [hkey]; exact hmem)]
    · rw [if_neg hmem, processSample_eq_of_accepted hgt hft htt,
        if_pos (by rw [hkey]; exact Finset.mem_insert_self _ _)]
  exact ⟨hmain, by rw [hmain], by rw [hmain]⟩

/-- C2 witness: the same concrete sample fed twice from the empty state. -/
theorem C2_witness :
    accepted sampleA = true ∧
      processSample (processSample emptyState sampleA) sampleA =
        processSample emptyState sampleA :=
  ⟨by decide,
    (C2_dedup_idempotent emptyState sampleA sampleA (by decide) (by decide) rfl).1⟩

/-- C3 counterexample: the claim fails on a singleton batch whose only
element has a present but non-orderable (`None`) sort key.  Python's
`sorted` performs no comparison on a one-element list, so no `TypeError`
is raised, the batch is NOT skipped, and the state changes: the sample's
dedup key is added to `processed_ids`. -/
theorem C3_counterexample :
    tsOf ⟨some ⟨some (.num 1), some (.num 2), some .null⟩, some ⟨some (.num 7)⟩⟩ =
        some .null ∧
      (process_batch emptyState
          [⟨some ⟨some (.num 1), some (.num 2), some .null⟩,
            some ⟨some (.num 7)⟩⟩]).processed_ids ≠
        emptyState.processed_ids := by
  constructor
  · rfl
  · have h : (process_batch emptyState
        [⟨some ⟨some (.num 1), some (.num 2), some .null⟩,
          some ⟨some (.num 7)⟩⟩]).processed_ids =
        insert ((PyVal.null, PyVal.num 7) : SampleKey) ∅ := rfl
    rw [h]
    exact Finset.insert_ne_empty _ _

/-- C3 amended: a batch whose sort key is missing on some element is
always skipped entirely (state unchanged, no exception), and a batch with
a present but non-orderable (`None`) sort key on some element is skipped
whenever the batch has at least two elements; a singleton batch with a
present non-orderable key escapes the Python `TypeError` (no comparison is
performed) and is processed normally. -/
theorem C3_unsortable_batch_skipped (st : ProcState) (b : List Sample)
    (h : (∃ s ∈ b, tsOf s = none) ∨ ((∃ s ∈ b, tsOf s = some .null) ∧ 2 ≤ b.length)) :
    process_batch st b = st := by
  have hsort : sort_by_timestamp b = [] := by
    unfold sort_by_timestamp
    rcases h with ⟨s, hs, hnone⟩ | ⟨⟨s, hs, hnull⟩, hlen⟩
    · rw [if_neg]
      intro hall
      rw [List.all_eq_true] at hall
      have hvs := hall s hs
      rw [hnone] at hvs
      simp at hvs
    · by_cases h1 : b.all (fun s => (tsOf s).isSome) = true
      · rw [if_pos h1, if_neg, if_neg, if_neg]
        · omega
        · intro hall
          have hvs := (List.all_eq_true.mp hall) s hs
          unfold isStrTS at hvs
          rw [hnull] at hvs
          simp at hvs
        · intro hall
          have hvs := (List.all_eq_true.mp hall) s hs
          unfold isNumTS at hvs
          rw [hnull] at hvs
          simp at hvs
      · rw [if_neg h1]
  unfold process_batch
  rw [hsort]
  rfl

/-- C3 witness: a concrete two-element batch, one element carrying a
`None` sort key, left unprocessed from the empty state. -/
theorem C3_witness :
    ((∃ s ∈ [(⟨some ⟨some (.num 1), some (.num 2), some .null⟩,
          some ⟨some (.num 7)⟩⟩ : Sample), sampleA], tsOf s = some .null) ∧
        2 ≤ ([(⟨some ⟨some (.num 1), some (.num 2), some .null⟩,
          some ⟨some (.num 7)⟩⟩ : Sample), sampleA]).length) ∧
      process_batch emptyState
          [⟨some ⟨some (.num 1), some (.num 2), some .null⟩,
            some ⟨some (.num 7)⟩⟩, sampleA] =
        emptyState :=
  ⟨by decide,
    C3_unsortable_batch_skipped emptyState _ (Or.inr (by decide))⟩

/-- C4: a gps record whose `lat` or `lng` cannot be parsed as a number
(a non-numeric string, or a `None` value) makes `process_gps` return zero
distance and the unchanged previous point — the raised
`ValueError`/`TypeError` is caught, nothing propagates. -/
theorem C4_process_gps_unparseable (prev : Option Point) (g : Gps)
    (h : pyFloat (g.lat.getD (.num 0)) = none ∨ pyFloat (g.lng.getD (.num 0)) = none) :
    process_gps prev g = (0, prev) := by
  unfold process_gps
  rcases h with h | h
  · rw [h]
  · cases h1 : pyFloat (g.lat.getD (.num 0)) with
    | none => rfl
    | some q => rw [h]

/-- C4 witness: a concrete non-numeric string latitude leaves a concrete
previous point and the zero distance contribution unchanged. -/
theorem C4_witness :
    pyFloat ((some (PyVal.str (String.mk ['x'])) : Option PyVal).getD (.num 0)) = none ∧
      process_gps (some ⟨1, 2⟩)
          ⟨some (.str (String.mk ['x'])), some (.num 3), none⟩ =
        (0, some ⟨1, 2⟩) :=
  ⟨by decide, C4_process_gps_unparseable _ _ (Or.inl (by decide))⟩

/-- C9: when the `lat` and `lng` keys are entirely absent from the gps
dict, `current_gps.get(k, 0)` substitutes the default `0`, so the sample
is treated as the real coordinate (0, 0): with no previous point it
becomes the baseline `(0, 0)`; with a previous point other than `(0, 0)`
the previous point moves to `(0, 0)` and the (possibly nonzero) haversine
distance to `(0, 0)` is added — the sample is not treated as unparseable. -/
theorem C9_absent_keys_default_zero (prev : Option Point) (g : Gps)
    (hlat : g.lat = none) (hlng : g.lng = none) :
    (prev = none → process_gps prev g = (0, some ⟨0, 0⟩)) ∧
      (∀ p : Point, prev = some p → ¬((0 : ℚ) = p.lat ∧ (0 : ℚ) = p.lng) →
        process_gps prev g = (haversine_distance (p.lat : ℝ) (p.lng : ℝ) 0 0, some ⟨0, 0⟩)) := by
  cases g with
  | mk glat glng gts =>
    simp only [Gps.lat] at hlat
    simp only [Gps.lng] at hlng
    subst hlat
    subst hlng
    constructor
    · intro hp
      subst hp
      rfl
    · intro p hp hne
      subst hp
      show (if (0 : ℚ) = p.lat ∧ (0 : ℚ) = p.lng then ((0 : ℝ), some p)
        else (haversine_distance (p.lat : ℝ) (p.lng : ℝ) ((0 : ℚ) : ℝ) ((0 : ℚ) : ℝ),
          some ⟨0, 0⟩)) = _
      rw [if_neg hne]
      norm_num

/-- C9 witness: a gps dict with both coordinate keys absent, processed
against the concrete previous point (1, 0). -/
theorem C9_witness :
    (⟨none, none, some (.num 5)⟩ : Gps).lat = none ∧
      ¬((0 : ℚ) = (⟨1, 0⟩ : Point).lat ∧ (0 : ℚ) = (⟨1, 0⟩ : Point).lng) ∧
      process_gps (some ⟨1, 0⟩) ⟨none, none, some (.num 5)⟩ =
        (haversine_distance 1 0 0 0, some ⟨0, 0⟩) := by
  refine ⟨rfl, by decide, ?_⟩
  have h := (C9_absent_keys_default_zero (some ⟨1, 0⟩) ⟨none, none, some (.num 5)⟩
    rfl rfl).2 ⟨1, 0⟩ rfl (by decide)
  simpa using h

/-- C5: the code computes `min(CORES or 1 * 4, 64)`, which Python parses
as `min(CORES or (1 * 4), 64)`: with 8 CPUs the capacity is 8, not the
`min(cpu_count * 4, 64) = 32` stated by the spec — the multiplication by 4
is only ever applied in the `cpu_count` falsy fallback. -/
theorem C5_concurrency_default_mismatch :
    MAX_CONCURRENT_REQUESTS (some 8) = 8 ∧ spec_max_concurrent 8 = 32 ∧
      MAX_CONCURRENT_REQUESTS (some 8) ≠ spec_max_concurrent 8 := by
  decide

/-- The filtering loop keeps exactly the non-`None` entries in list order,
whatever the accumulator. -/
theorem collect_valid_foldl (rs : List (Option Sample)) :
    ∀ acc : List Sample,
      rs.foldl
        (fun acc r =>
          match r with
          | some s => acc ++ [s]
          | none => acc)
        acc = acc ++ rs.reduceOption := by
  induction rs with
  | nil => intro acc; simp [List.reduceOption]
  | cons r t ih =>
    intro acc
    cases r with
    | none =>
      rw [List.foldl_cons, List.reduceOption_cons_of_none]
      exact ih acc
    | some s =>
      rw [List.foldl_cons, List.reduceOption_cons_of_some]
      rw [ih (acc ++ [s])]
      simp

/-- The gathered result list has one entry per issued sample index,
whatever the accumulator and stop flag. -/
theorem gather_foldl_length (resps : ℕ → Resp) :
    ∀ (l : List ℕ) (acc : List FetchResult × Bool),
      ((l.foldl (gather_step resps) acc).1).length = acc.1.length + l.length := by
  intro l
  induction l with
  | nil => intro acc; simp
  | cons i t ih =>
    intro acc
    rw [List.foldl_cons, ih]
    unfold gather_step
    simp
    omega

/-- C6 amended: `fetch_batch` waits for all `batch_size` fetches (the
gathered list has exactly `n` entries, one per sample index) and yields
exactly the non-absence outcomes in request (task) order — `asyncio.gather`
returns results in the order of its argument list, not completion order. -/
theorem C6_fetch_batch_request_order (stop : Bool) (resps : ℕ → Resp) (n : ℕ) :
    (gather_results stop resps n).1.length = n ∧
      (fetch_batch stop resps n).1 =
        ((gather_results stop resps n).1.map FetchResult.result).reduceOption := by
  constructor
  · unfold gather_results
    rw [gather_foldl_length resps (List.range n) ([], stop)]
    simp
  · unfold fetch_batch collect_valid
    rw [collect_valid_foldl]
    simp

/-- Modelled from the spec: collecting only the non-absence outcomes "in
order of completion" — `order` lists the sample positions in the order the
corresponding fetches completed, and the outcomes are collected by walking
the gathered results in that order. -/
def completion_order_collect (order : List ℕ) (results : List (Option Sample)) :
    List Sample :=
  (order.map (fun i => results.getD i none)).reduceOption

/-- C6 counterexample: two successful fetches whose completion order is
(sample 1, then sample 0).  The code (`asyncio.gather` + filter loop)
yields them in request order, which differs from the collection in
completion order asserted by the claim. -/
theorem C6_counterexample :
    (fetch_batch false
        (fun i => if i = 0 then .status 200 (some sampleA) else .status 200 (some sampleB))
        2).1 = [sampleA, sampleB] ∧
      completion_order_collect [1, 0] [some sampleA, some sampleB] = [sampleB, sampleA] ∧
      ([sampleA, sampleB] : List Sample) ≠ [sampleB, sampleA] := by
  decide

/-- Once the stop flag is set, a whole gathered batch issues no request,
returns only absences, and leaves the flag set. -/
theorem gather_results_stopped (resps : ℕ → Resp) (n : ℕ) :
    gather_results true resps n = (List.replicate n ⟨none, false, false⟩, true) := by
  unfold gather_results
  have key : ∀ (l : List ℕ) (acc : List FetchResult),
      (l.foldl (gather_step resps) (acc, true)) =
        (acc ++ List.replicate l.length ⟨none, false, false⟩, true) := by
    intro l
    induction l with
    | nil => intro acc; simp
    | cons i t ih =>
      intro acc
      rw [List.foldl_cons]
      have hstep : gather_step resps (acc, true) i =
          (acc ++ [⟨none, false, false⟩], true) := rfl
      rw [hstep, ih (acc ++ [(⟨none, false, false⟩ : FetchResult)])]
      simp [List.replicate_succ]
  rw [key (List.range n) []]
  simp

theorem async_data_generator_stopped (resps : ℕ → ℕ → Resp) (n : ℕ) :
    ∀ fuel i, async_data_generator resps n fuel true i = [] := by
  intro fuel i
  cases fuel with
  | zero => rfl
  | succ fuel => rfl

/-- C7: the termination latch.  (i) A fetch invoked with the stop flag set
short-circuits: it returns absence, issues no request, and does not touch
the flag (in particular it never resets it — the threaded flag only ever
grows by `||`).  (ii) A whole batch started with the flag set issues no
request at all.  (iii) The generator produces no further batch once the
flag is set, and (iv) if a 404 during batch `i` leaves the flag set, the
batch sequence ends within that one batch boundary: at most one more batch
is yielded. -/
theorem C7_termination_latch :
    (∀ (stopResp : Bool) (r : Resp),
        fetch_sample true stopResp r = ⟨none, false, false⟩) ∧
      (∀ (resps : ℕ → Resp) (n : ℕ),
        gather_results true resps n = (List.replicate n ⟨none, false, false⟩, true)) ∧
      (∀ (resps : ℕ → ℕ → Resp) (n fuel i : ℕ),
        async_data_generator resps n fuel true i = []) ∧
      (∀ (resps : ℕ → ℕ → Resp) (n fuel i : ℕ),
        (fetch_batch false (resps i) n).2 = true →
        (async_data_generator resps n (fuel + 1) false i).length ≤ 1) := by
  refine ⟨fun _ _ => rfl, gather_results_stopped, fun r n fuel i =>
    async_data_generator_stopped r n fuel i, ?_⟩
  intro resps n fuel i h
  have hunf : async_data_generator resps n (fuel + 1) false i =
      (if (fetch_batch false (resps i) n).1 = [] then []
       else (fetch_batch false (resps i) n).1 ::
         async_data_generator resps n fuel (fetch_batch false (resps i) n).2 (i + 1)) := rfl
  rw [hunf]
  by_cases he : (fetch_batch false (resps i) n).1 = []
  · rw [if_pos he]
    simp
  · rw [if_neg he, h, async_data_generator_stopped]
    simp

/-- C7 witness: a server answering 404 everywhere sets the flag during the
first batch and the generator yields at most one batch after it. -/
theorem C7_witness :
    (fetch_batch false ((fun _ _ => Resp.status 404 none) 1) 1).2 = true ∧
      (async_data_generator (fun _ _ => Resp.status 404 none) 1 (0 + 1) false 1).length ≤ 1 :=
  ⟨by decide,
    C7_termination_latch.2.2.2 (fun _ _ => Resp.status 404 none) 1 0 1 (by decide)⟩

/-- C10: a 200 response examined while the termination flag is already set
is discarded: `fetch_sample` returns absence whatever the decoded body
would have been, so a late in-flight success never reaches the
aggregation stage. -/
theorem C10_stale_success_discarded (body : Option Sample) :
    fetch_sample false true (.status 200 body) = ⟨none, false, true⟩ := rfl

/-- The haversine intermediate value vanishes on coincident points. -/
theorem a_hav_self (lat lng : ℝ) : a_hav lat lng lat lng = 0 := by
  unfold a_hav
  simp

/-- The haversine intermediate value is symmetric in its two points. -/
theorem a_hav_comm (lat1 lng1 lat2 lng2 : ℝ) :
    a_hav lat2 lng2 lat1 lng1 = a_hav lat1 lng1 lat2 lng2 := by
  unfold a_hav
  have h1 : (radians lat1 - radians lat2) / 2 = -((radians lat2 - radians lat1) / 2) := by
    ring
  have h2 : (radians lng1 - radians lng2) / 2 = -((radians lng2 - radians lng1) / 2) := by
    ring
  rw [h1, h2, Real.sin_neg, Real.sin_neg]
  ring

/-- `atan2` is nonnegative in the closed first quadrant. -/
theorem atan2_nonneg {y x : ℝ} (hy : 0 ≤ y) (hx : 0 ≤ x) : 0 ≤ atan2 y x := by
  unfold atan2
  by_cases h1 : 0 < x
  · rw [if_pos h1, ← Real.arctan_zero]
    exact Real.arctan_strictMono.monotone (div_nonneg hy h1.le)
  · rw [if_neg h1]
    have hx0 : x = 0 := le_antisymm (not_lt.mp h1) hx
    rw [if_neg (by rw [hx0]; exact lt_irrefl 0)]
    by_cases h2 : 0 < y
    · rw [if_pos h2]
      positivity
    · rw [if_neg h2, if_neg (not_lt.mpr hy)]

/-- C8: for all coordinates, the haversine distance of a point to itself
is zero, the distance is symmetric in its two arguments, and the distance
is nonnegative.  (Python float arithmetic idealised as exact real
arithmetic.) -/
theorem C8_distance_metric_properties :
    (∀ lat lng : ℝ, haversine_distance lat lng lat lng = 0) ∧
      (∀ lat1 lng1 lat2 lng2 : ℝ,
        haversine_distance lat1 lng1 lat2 lng2 = haversine_distance lat2 lng2 lat1 lng1) ∧
      (∀ lat1 lng1 lat2 lng2 : ℝ, 0 ≤ haversine_distance lat1 lng1 lat2 lng2) := by
  refine ⟨?_, ?_, ?_⟩
  · intro lat lng
    unfold haversine_distance
    rw [a_hav_self, Real.sqrt_zero, sub_zero, Real.sqrt_one]
    unfold atan2
    rw [if_pos zero_lt_one, zero_div, Real.arctan_zero]
    ring
  · intro lat1 lng1 lat2 lng2
    unfold haversine_distance
    rw [a_hav_comm]
  · intro lat1 lng1 lat2 lng2
    unfold haversine_distance
    have h := atan2_nonneg (Real.sqrt_nonneg (a_hav lat1 lng1 lat2 lng2))
      (Real.sqrt_nonneg (1 - a_hav lat1 lng1 lat2 lng2))
    unfold EARTH_RADIUS_KM
    have h2 : (0 : ℝ) ≤ 2 * atan2 (Real.sqrt (a_hav lat1 lng1 lat2 lng2))
        (Real.sqrt (1 - a_hav lat1 lng1 lat2 lng2)) := by
      have : (0 : ℝ) ≤ 2 := by norm_num
      exact mul_nonneg this h
    have h3 : (0 : ℝ) ≤ 6371 := by norm_num
    exact mul_nonneg h3 h2
